import Mathlib

/-
Verification development for the elt_tools repository (elt_tools/client.py).

The development has two layers.

Textual layer: a direct shallow embedding of the module-level function
`_construct_where_clause_from_timerange` (client.py lines 10-51).  Python
datetime/date values are embedded as records of their components, rendered
exactly as Python's str() renders them; a raised ValueError is embedded as
`Except.error` carrying the exact message string.

Semantic layer: the operations of ELTDBPair (`compare_counts`, `find_orphans`,
`remove_orphans_from_target`, `remove_orphans_from_target_with_binary_search`)
over an abstract pair of stores.  A store is a list of rows, a row carrying a
primary-key value and one timestamp per timestamp column; timestamps are
integers (microseconds, the resolution of Python's datetime/timedelta).  The
database engine itself is not part of the repository, so queries are
interpreted semantically: a COUNT over a time range counts the rows matching
the range predicate built by the where-clause builder (OR across the listed
columns of the half-open interval when both bounds are given), and the bulk
DELETE removes the rows whose key value is listed.  The semantic layer models
the non-error path (timestamp columns present whenever a bound is given, and
stick_to_dates = False); the error paths are settled at the textual layer.
-/

/-- Components of a Python `datetime.date` value. -/
structure PyDate where
  year : Nat
  month : Nat
  day : Nat
deriving DecidableEq, Repr

/-- Components of a Python `datetime.datetime` value (tz-naive, as used by the
repository).  Equality is componentwise, exactly as in Python. -/
structure PyDateTime where
  date : PyDate
  hour : Nat
  minute : Nat
  second : Nat
  microsecond : Nat
deriving DecidableEq, Repr

/-- Zero-pad the decimal rendering of `n` to `width` characters, as Python's
format specifiers 04d / 02d / 06d do. -/
def padNum (width n : Nat) : String :=
  let s := toString n
  String.mk (List.replicate (width - s.length) '0') ++ s

/-- Python's str() on a `datetime.date`: YYYY-MM-DD. -/
def PyDate.render (d : PyDate) : String :=
  padNum 4 d.year ++ "-" ++ padNum 2 d.month ++ "-" ++ padNum 2 d.day

/-- Python's str() on a tz-naive `datetime.datetime`: "YYYY-MM-DD HH:MM:SS",
with ".ffffff" appended when the microsecond component is nonzero. -/
def PyDateTime.render (t : PyDateTime) : String :=
  t.date.render ++ " " ++ padNum 2 t.hour ++ ":" ++ padNum 2 t.minute ++ ":" ++
    padNum 2 t.second ++ (if t.microsecond ≠ 0 then "." ++ padNum 6 t.microsecond else "")

/-- After the optional `.date()` truncation, a bound variable holds either a
datetime or a date; the f-string interpolation renders whichever it holds. -/
inductive PyTimeVal where
  | dt (t : PyDateTime)
  | d (t : PyDate)
deriving DecidableEq, Repr

def PyTimeVal.render : PyTimeVal → String
  | .dt t => t.render
  | .d t => t.render

/-- Message of the ValueError raised at client.py line 21 (the two Python
string literals are juxtaposed with no separator, hence "date.Since"). -/
def msgMeaninglessRange : String :=
  "The date range for dates is inclusive of the start date and exclusive of the end date." ++
    "Since your start and end date range is the same, your query will be meaningless."

/-- Message of the ValueError raised at client.py line 26. -/
def msgNoTimestampFields : String :=
  "You\x27ve passed in a time range, but no timestamp field names."

/-- Shallow embedding of `_construct_where_clause_from_timerange` (client.py
lines 10-51).  A raised ValueError becomes `Except.error` with the exact
message.  `timestamp_fields = []` plays the role of both `None` and the empty
list (both are falsy in Python).  In the three bound-carrying branches the
Python guards `timestamp_fields and ...` are equivalent to the match on the
bounds alone, because an input with a bound and no timestamp fields was
already rejected by the second check. -/
def construct_where_clause_from_timerange (start_datetime end_datetime : Option PyDateTime)
    (timestamp_fields : List String) (stick_to_dates : Bool) : Except String String :=
  if stick_to_dates ∧ start_datetime = end_datetime then
    .error msgMeaninglessRange
  else if (timestamp_fields = [] ∧ start_datetime.isSome) ∨
      (timestamp_fields = [] ∧ end_datetime.isSome) then
    .error msgNoTimestampFields
  else
    let startV : Option PyTimeVal :=
      start_datetime.map (fun t => if stick_to_dates then .d t.date else .dt t)
    let endV : Option PyTimeVal :=
      end_datetime.map (fun t => if stick_to_dates then .d t.date else .dt t)
    match startV, endV with
    | some sv, some ev =>
      .ok (" WHERE " ++ String.intercalate " OR " (timestamp_fields.map (fun f =>
        "(" ++ f ++ " >= \x27" ++ sv.render ++ "\x27 AND " ++ f ++ " < \x27" ++
          ev.render ++ "\x27)")))
    | some sv, none =>
      .ok (" WHERE " ++ String.intercalate " AND " (timestamp_fields.map (fun f =>
        f ++ " >= \x27" ++ sv.render ++ "\x27")))
    | none, some ev =>
      .ok (" AND " ++ String.intercalate " AND " (timestamp_fields.map (fun f =>
        f ++ " < \x27" ++ ev.render ++ "\x27")))
    | none, none => .ok ""

/-- C4 helper: sample datetime used by witnesses. -/
def sampleDT : PyDateTime := ⟨⟨2020, 1, 2⟩, 0, 0, 0, 0⟩

/-- A primary-key value as normalized by `format_id` (client.py lines 232-237):
integers stay integers, every other type becomes its string representation.
The discriminated form keeps the two variants apart, matching Python where an
int and a str are never equal. -/
inductive KeyVal where
  | int (n : Int)
  | str (s : String)
deriving DecidableEq, Repr

/-- A row of the reconciled table: a primary-key value and one timestamp per
timestamp column.  Timestamps are integers in microseconds, the resolution of
Python's datetime/timedelta. -/
structure Row where
  id : KeyVal
  ts : List (String × Int)
deriving DecidableEq, Repr

/-- Timestamp of row `r` in column `f`. -/
def Row.tsv (r : Row) (f : String) : Int :=
  ((r.ts.find? (fun p => p.1 = f)).map Prod.snd).getD 0

/-- Semantic reading of the predicate built by the where-clause builder, used
to interpret the out-of-repository database engine on COUNT/SELECT queries:
with both bounds, OR across the listed columns of the half-open interval
(client.py lines 34-38); with one bound, AND across the columns; with no
bound, everything matches. -/
def matchesRange (timestamp_fields : List String) (s e : Option Int) (r : Row) : Bool :=
  match s, e with
  | some sv, some ev => timestamp_fields.any (fun f => decide (sv ≤ r.tsv f ∧ r.tsv f < ev))
  | some sv, none => timestamp_fields.all (fun f => decide (sv ≤ r.tsv f))
  | none, some ev => timestamp_fields.all (fun f => decide (r.tsv f < ev))
  | none, none => true

/-- Semantic embedding of `DataClient.count` (client.py lines 102-128) on the
given table rows: the number of rows matching the range predicate.  The
`field_name` argument (COUNT(*) versus COUNT(key)) is immaterial here because
every modelled row carries a non-null key. -/
def countRows (rows : List Row) (timestamp_fields : List String) (s e : Option Int) : Nat :=
  (rows.filter (matchesRange timestamp_fields s e)).length

/-- Embedding of the local `format_id` of `find_orphans` (client.py lines
232-237): an int passes through, anything else is cast to str.  On the
already-discriminated `KeyVal` both branches are the identity. -/
def format_id : KeyVal → KeyVal
  | .int n => .int n
  | .str s => .str s

/-- The set of normalized key values of the rows matching the range: the
result of `SELECT key AS id FROM t <where_clause>` followed by
`set(map(format_id, rows))` (client.py lines 207-243).  A Python set is
embedded as a duplicate-free list (`dedup`); its iteration order is
unspecified in Python, and the model fixes first-occurrence order. -/
def idsIn (rows : List Row) (timestamp_fields : List String) (s e : Option Int) :
    List KeyVal :=
  ((rows.filter (matchesRange timestamp_fields s e)).map (fun r => format_id r.id)).dedup

/-- Embedding of `ELTDBPair.compare_counts` (client.py lines 168-191): target
count minus source count, a (possibly negative) integer. -/
def compare_counts (src tgt : List Row) (timestamp_fields : List String)
    (s e : Option Int) : Int :=
  (countRows tgt timestamp_fields s e : Int) - (countRows src timestamp_fields s e : Int)

/-- The store reads `find_orphans` can issue, recorded in order: the pair of
COUNT queries of `compare_counts`, the target id fetch, the source id fetch. -/
inductive DBOp where
  | countPair
  | fetchTargetIds
  | fetchSourceIds
deriving DecidableEq, Repr

/-- Embedding of `ELTDBPair.find_orphans` (client.py lines 193-246) together
with the trace of store reads it issues.  The where clause built from the
range is non-empty exactly when at least one bound is given; in that case
`compare_counts` runs first and a zero difference short-circuits to the empty
set with no id fetch.  The orphan set is target ids minus source ids. -/
def find_orphans_traced (src tgt : List Row) (timestamp_fields : List String)
    (s e : Option Int) : List KeyVal × List DBOp :=
  if s.isSome ∨ e.isSome then
    if compare_counts src tgt timestamp_fields s e = 0 then
      ([], [DBOp.countPair])
    else
      ((idsIn tgt timestamp_fields s e).filter
          (fun k => decide (k ∉ idsIn src timestamp_fields s e)),
        [DBOp.countPair, DBOp.fetchTargetIds, DBOp.fetchSourceIds])
  else
    ((idsIn tgt timestamp_fields s e).filter
        (fun k => decide (k ∉ idsIn src timestamp_fields s e)),
      [DBOp.fetchTargetIds, DBOp.fetchSourceIds])

/-- The value `find_orphans` returns: the set difference target ids minus
source ids, as a duplicate-free list. -/
def find_orphans (src tgt : List Row) (timestamp_fields : List String)
    (s e : Option Int) : List KeyVal :=
  (find_orphans_traced src tgt timestamp_fields s e).1

/-- Embedding of the local `format_primary_key` of `remove_orphans_from_target`
(client.py lines 266-270): ints rendered bare, everything else single-quoted. -/
def format_primary_key : KeyVal → String
  | .int n => toString n
  | .str s => "\x27" ++ s ++ "\x27"

/-- The exact delete statement text built at client.py lines 277-280,
whitespace and newlines included. -/
def delete_query (table_name key_field csv : String) : String :=
  "\n            DELETE " ++ table_name ++ " \n            WHERE " ++ key_field ++
    " IN (" ++ csv ++ ") \n            "

/-- Result of a removal operation: the returned count, the target store after
the operation, and the delete statements issued against the target. -/
structure RemoveResult where
  removed : Nat
  target : List Row
  deletes : List String
deriving DecidableEq, Repr

/-- Embedding of `ELTDBPair.remove_orphans_from_target` (client.py lines
248-284): compute the orphan set, join the formatted keys, and when the joined
text is non-empty issue one bulk DELETE; the returned count is the orphan-set
size computed before the delete.  The DELETE is interpreted on the target as
removing every row whose key value is in the orphan set. -/
def remove_orphans_from_target (src tgt : List Row) (table_name key_field : String)
    (timestamp_fields : List String) (s e : Option Int) : RemoveResult :=
  let orphans := find_orphans src tgt timestamp_fields s e
  let num_orphans := orphans.length
  let orphan_ids_csv := String.intercalate "," (orphans.map format_primary_key)
  if orphan_ids_csv = "" then
    ⟨num_orphans, tgt, []⟩
  else
    ⟨num_orphans, tgt.filter (fun r => decide (format_id r.id ∉ orphans)),
      [delete_query table_name key_field orphan_ids_csv]⟩

/-- Python's `timedelta / 2`: exact microsecond division, rounding a half
microsecond to the nearest even microsecond.  The `/` and `%` here are Lean's
Euclidean operations, which agree with Python floor division for the positive
divisor 2. -/
def pyHalf (d : Int) : Int :=
  if d % 2 = 0 then d / 2
  else if (d / 2) % 2 = 0 then d / 2 else d / 2 + 1

/-- Embedding of the local `avg_datetime` (client.py lines 331-332):
start + (end - start) / 2. -/
def avg_datetime (start_dt end_dt : Int) : Int :=
  start_dt + pyHalf (end_dt - start_dt)

/-- The default `min_segment_size = timedelta(seconds=10)` in microseconds. -/
def defaultMinSegmentSize : Int := 10000000

/-- Embedding of `ELTDBPair.remove_orphans_from_target_with_binary_search`
(client.py lines 286-416) on a range whose two bounds are given (every
recursive call passes both bounds; the bound-deriving queries of lines
304-323 belong to the unset-bounds entry path only).  The two segment counts
are pure reads of the target, so computing them inside the branches that use
them is equivalent to the source's computing them up front and ignoring them
in the first exit condition.  The final branch condition of line 397,
count1 >= thres or count2 >= thres, is the negation of the base-case-C
condition, so it is the else branch here and the trailing
`return removed_count` of line 416 is unreachable with a zero count.
Recursive calls pass `thres` but not `min_segment_size` (lines 398-414), so
levels below the top use the default.  Termination is by the shrinking of the
integer range. -/
def remove_orphans_from_target_with_binary_search (src tgt : List Row)
    (table_name key_field : String) (timestamp_fields : List String)
    (start_dt end_dt : Int) (thres : Nat) (min_segment_size : Int) : RemoveResult :=
  let halfway := avg_datetime start_dt end_dt
  if h1 : start_dt = halfway ∨ end_dt = halfway ∨ halfway - start_dt < min_segment_size then
    remove_orphans_from_target src tgt table_name key_field timestamp_fields
      (some start_dt) (some end_dt)
  else
    let count1 := if start_dt ≠ halfway then
      countRows tgt timestamp_fields (some start_dt) (some halfway) else 0
    let count2 := if end_dt ≠ halfway then
      countRows tgt timestamp_fields (some halfway) (some end_dt) else 0
    if h2 : count1 = 0 ∧ count2 = 0 then
      ⟨0, tgt, []⟩
    else if h3 : count1 < thres ∧ count2 < thres then
      let r1 := remove_orphans_from_target src tgt table_name key_field timestamp_fields
        (some start_dt) (some halfway)
      let r2 := remove_orphans_from_target src r1.target table_name key_field
        timestamp_fields (some halfway) (some end_dt)
      ⟨r1.removed + r2.removed, r2.target, r1.deletes ++ r2.deletes⟩
    else
      let r1 := remove_orphans_from_target_with_binary_search src tgt table_name key_field
        timestamp_fields start_dt halfway thres defaultMinSegmentSize
      let r2 := remove_orphans_from_target_with_binary_search src r1.target table_name
        key_field timestamp_fields halfway end_dt thres defaultMinSegmentSize
      ⟨r1.removed + r2.removed, r2.target, r1.deletes ++ r2.deletes⟩
termination_by (end_dt - start_dt).natAbs
decreasing_by
  all_goals
    have hb : (0 ≤ end_dt - start_dt →
        0 ≤ pyHalf (end_dt - start_dt) ∧ pyHalf (end_dt - start_dt) ≤ end_dt - start_dt) ∧
        (end_dt - start_dt ≤ 0 →
        end_dt - start_dt ≤ pyHalf (end_dt - start_dt) ∧ pyHalf (end_dt - start_dt) ≤ 0) := by
      unfold pyHalf
      split
      · omega
      · split <;> omega
    have ha : avg_datetime start_dt end_dt = start_dt + pyHalf (end_dt - start_dt) := rfl
    simp only [not_or] at h1
    omega

/-- The deletion-only invariant under which the count-difference shortcut of
`find_orphans` is exact: key values are unique within each store (they are
primary keys) and every source row is present unchanged in the target, so a
target/source discrepancy can only be a record deleted from the source.  This
is the policy assumption the repository itself relies on for the shortcut. -/
structure GoodPair (src tgt : List Row) : Prop where
  sub : ∀ r ∈ src, r ∈ tgt
  nodup_src : (src.map Row.id).Nodup
  nodup_tgt : (tgt.map Row.id).Nodup

/-- Specification-side orphan set of a half-open range: key values of target
rows matching the range that belong to no source row at all. -/
def orphansSpec (src tgt : List Row) (timestamp_fields : List String) (s e : Int) :
    Finset KeyVal :=
  (idsIn tgt timestamp_fields (some s) (some e)).toFinset \ (src.map Row.id).toFinset

/-- Counterexample dataset for the sum law: two target rows at time 0 and two
source rows (with different keys) at time 30s make the full-range count
difference zero. -/
def tgtCntr : List Row := [⟨.int 1, [("ts", 0)]⟩, ⟨.int 2, [("ts", 0)]⟩]

def srcCntr : List Row := [⟨.int 3, [("ts", 30000000)]⟩, ⟨.int 4, [("ts", 30000000)]⟩]

/-- A deletion-only pair used by witnesses: the source row is present in the
target, and the target has one extra (orphan) row. -/
def srcPair : List Row := [⟨.int 1, [("ts", 0)]⟩]

def tgtPair : List Row := [⟨.int 1, [("ts", 0)]⟩, ⟨.int 2, [("ts", 25000000)]⟩]

/-- C9 witness dataset: one target row in the first half and threshold 1 force
the recursive case. -/
def tgtOne : List Row := [⟨.int 7, [("ts", 0)]⟩]
/-- C4: a bound supplied together with an empty (or absent) timestamp-column
set always makes the builder raise a ValueError (the repository's stand-in for
`ConfigurationError`) before any query text is produced. -/
theorem bound_without_fields_errors (start_datetime end_datetime : Option PyDateTime)
    (stick_to_dates : Bool)
    (h : start_datetime.isSome ∨ end_datetime.isSome) :
    ∃ msg, construct_where_clause_from_timerange start_datetime end_datetime [] stick_to_dates
      = .error msg := by
  unfold construct_where_clause_from_timerange
  by_cases h1 : stick_to_dates ∧ start_datetime = end_datetime
  · exact ⟨msgMeaninglessRange, by rw [if_pos h1]⟩
  · refine ⟨msgNoTimestampFields, ?_⟩
    rw [if_neg h1, if_pos]
    rcases h with h | h
    · exact Or.inl ⟨rfl, h⟩
    · exact Or.inr ⟨rfl, h⟩

/-- C4 witness: with a start bound and no timestamp columns the builder
errors. -/
theorem bound_without_fields_errors_witness :
    ((some sampleDT : Option PyDateTime).isSome ∨ (none : Option PyDateTime).isSome) ∧
      ∃ msg, construct_where_clause_from_timerange (some sampleDT) none [] false
        = .error msg :=
  ⟨Or.inl rfl, bound_without_fields_errors (some sampleDT) none false (Or.inl rfl)⟩

/-- C2: with an end bound, no start bound and a non-empty column set, the
builder emits the AND-conjunction of "column < end" but prefixed by " AND "
rather than " WHERE " (the both-bounds branch at client.py line 39 returns
early, so the " AND " of line 47 never follows a WHERE); appended to
"SELECT ... FROM t" this fragment is not a well-formed SQL predicate. -/
theorem end_only_clause_lacks_where :
    construct_where_clause_from_timerange none (some sampleDT) ["ts"] false
      = .ok " AND ts < \x272020-01-02 00:00:00\x27" ∧
    (" AND ts < \x272020-01-02 00:00:00\x27").data.take 6 ≠ (" WHERE").data := by
  constructor
  · rfl
  · decide

/-- C3: two distinct datetimes falling on the same calendar date do not raise
under stick_to_dates: the equality check at client.py line 18 compares the
bounds before the truncation of lines 28-32, so the builder returns the
degenerate predicate (ts >= d AND ts < d) instead of raising. -/
theorem same_date_distinct_datetimes_no_error :
    construct_where_clause_from_timerange (some ⟨⟨2020, 1, 5⟩, 0, 0, 0, 0⟩)
        (some ⟨⟨2020, 1, 5⟩, 12, 0, 0, 0⟩) ["ts"] true
      = .ok " WHERE (ts >= \x272020-01-05\x27 AND ts < \x272020-01-05\x27)" := by
  rfl

/-- C5: with neither bound given and stick_to_dates requested, the builder
raises (None == None satisfies the pre-truncation equality check of line 18)
instead of returning the empty predicate; with the flag off it does return the
empty predicate. -/
theorem no_bounds_with_dates_flag_errors :
    construct_where_clause_from_timerange none none ["ts"] true
      = .error msgMeaninglessRange ∧
    construct_where_clause_from_timerange none none ["ts"] false = .ok "" := by
  constructor
  · rfl
  · rfl


theorem format_id_eq (k : KeyVal) : format_id k = k := by
  cases k <;> rfl

theorem pyHalf_bounds (d : Int) :
    (0 ≤ d → 0 ≤ pyHalf d ∧ pyHalf d ≤ d) ∧ (d ≤ 0 → d ≤ pyHalf d ∧ pyHalf d ≤ 0) := by
  unfold pyHalf
  split
  · omega
  · split <;> omega

theorem matchesRange_both_iff (F : List String) (sv ev : Int) (r : Row) :
    matchesRange F (some sv) (some ev) r = true ↔ ∃ f ∈ F, sv ≤ r.tsv f ∧ r.tsv f < ev := by
  simp [matchesRange]

theorem matchesRange_false_of_le (F : List String) (sv ev : Int) (r : Row) (h : ev ≤ sv) :
    matchesRange F (some sv) (some ev) r = false := by
  simp only [matchesRange, List.any_eq_false, decide_eq_true_eq]
  intro f _
  omega

theorem matchesRange_split (F : List String) (s m e : Int) (r : Row) (h1 : s ≤ m)
    (h2 : m ≤ e) :
    matchesRange F (some s) (some e) r = true ↔
      (matchesRange F (some s) (some m) r = true ∨ matchesRange F (some m) (some e) r = true) := by
  simp only [matchesRange_both_iff]
  constructor
  · rintro ⟨f, hf, hle, hlt⟩
    rcases lt_or_le (r.tsv f) m with hm | hm
    · exact Or.inl ⟨f, hf, hle, hm⟩
    · exact Or.inr ⟨f, hf, hm, hlt⟩
  · rintro (⟨f, hf, hle, hlt⟩ | ⟨f, hf, hle, hlt⟩)
    · exact ⟨f, hf, hle, by omega⟩
    · exact ⟨f, hf, by omega, hlt⟩

theorem idsIn_nodup (rows : List Row) (F : List String) (s e : Option Int) :
    (idsIn rows F s e).Nodup :=
  List.nodup_dedup _

theorem mem_idsIn (rows : List Row) (F : List String) (s e : Option Int) (k : KeyVal) :
    k ∈ idsIn rows F s e ↔ ∃ r ∈ rows, matchesRange F s e r = true ∧ r.id = k := by
  simp only [idsIn, List.mem_dedup, List.mem_map, List.mem_filter, format_id_eq]
  constructor
  · rintro ⟨r, ⟨hr, hm⟩, rfl⟩
    exact ⟨r, hr, hm, rfl⟩
  · rintro ⟨r, hr, hm, rfl⟩
    exact ⟨r, ⟨hr, hm⟩, rfl⟩

theorem countRows_eq_length_idsIn (rows : List Row) (F : List String) (s e : Option Int)
    (h : (rows.map Row.id).Nodup) :
    countRows rows F s e = (idsIn rows F s e).length := by
  have hsub : ((rows.filter (matchesRange F s e)).map Row.id).Sublist (rows.map Row.id) :=
    (List.filter_sublist rows).map Row.id
  have hnd : ((rows.filter (matchesRange F s e)).map Row.id).Nodup := h.sublist hsub
  have hmap : (rows.filter (matchesRange F s e)).map (fun r => format_id r.id)
      = (rows.filter (matchesRange F s e)).map Row.id := by
    simp [format_id_eq]
  unfold idsIn countRows
  rw [hmap, List.dedup_eq_self.mpr hnd, List.length_map]

theorem GoodPair.row_eq {src tgt : List Row} (h : GoodPair src tgt) {r1 r2 : Row}
    (h1 : r1 ∈ src) (h2 : r2 ∈ tgt) (hid : r1.id = r2.id) : r1 = r2 :=
  List.inj_on_of_nodup_map h.nodup_tgt (h.sub r1 h1) h2 hid

theorem mem_idsIn_src_iff {src tgt : List Row} (h : GoodPair src tgt) (F : List String)
    (s e : Option Int) (k : KeyVal) :
    k ∈ idsIn src F s e ↔ k ∈ src.map Row.id ∧ k ∈ idsIn tgt F s e := by
  constructor
  · intro hk
    rw [mem_idsIn] at hk
    obtain ⟨r, hr, hm, rfl⟩ := hk
    exact ⟨List.mem_map_of_mem Row.id hr, (mem_idsIn ..).mpr ⟨r, h.sub r hr, hm, rfl⟩⟩
  · rintro ⟨hks, hkt⟩
    rw [List.mem_map] at hks
    obtain ⟨rs, hrs, rfl⟩ := hks
    rw [mem_idsIn] at hkt ⊢
    obtain ⟨rt, hrt, hmt, hrtid⟩ := hkt
    have hEq : rs = rt := h.row_eq hrs hrt hrtid.symm
    exact ⟨rs, hrs, hEq ▸ hmt, rfl⟩

theorem idsIn_src_subset {src tgt : List Row} (h : GoodPair src tgt) (F : List String)
    (s e : Option Int) : (idsIn src F s e).toFinset ⊆ (idsIn tgt F s e).toFinset := by
  intro k hk
  rw [List.mem_toFinset] at hk ⊢
  exact ((mem_idsIn_src_iff h F s e k).mp hk).2

theorem compare_counts_zero_no_orphans {src tgt : List Row} (h : GoodPair src tgt)
    (F : List String) (s e : Int)
    (hc : compare_counts src tgt F (some s) (some e) = 0) :
    orphansSpec src tgt F s e = ∅ := by
  have hct : countRows tgt F (some s) (some e) = (idsIn tgt F (some s) (some e)).length :=
    countRows_eq_length_idsIn tgt F (some s) (some e) h.nodup_tgt
  have hcs : countRows src F (some s) (some e) = (idsIn src F (some s) (some e)).length :=
    countRows_eq_length_idsIn src F (some s) (some e) h.nodup_src
  have hlen : (idsIn src F (some s) (some e)).length = (idsIn tgt F (some s) (some e)).length := by
    unfold compare_counts at hc
    omega
  have hcard : (idsIn tgt F (some s) (some e)).toFinset.card
      ≤ (idsIn src F (some s) (some e)).toFinset.card := by
    rw [List.toFinset_card_of_nodup (idsIn_nodup ..), List.toFinset_card_of_nodup (idsIn_nodup ..)]
    omega
  have hset : (idsIn src F (some s) (some e)).toFinset = (idsIn tgt F (some s) (some e)).toFinset :=
    Finset.eq_of_subset_of_card_le (idsIn_src_subset h F (some s) (some e)) hcard
  unfold orphansSpec
  rw [Finset.sdiff_eq_empty_iff_subset]
  intro k hk
  rw [← hset] at hk
  rw [List.mem_toFinset] at hk ⊢
  exact ((mem_idsIn_src_iff h F (some s) (some e) k).mp hk).1

theorem toDigits_ne_nil (b n : Nat) : Nat.toDigits b n ≠ [] := by
  have h : 0 < (Nat.toDigits b n).length := by
    show 0 < (Nat.toDigitsCore b (n + 1) n []).length
    unfold Nat.toDigitsCore
    dsimp only
    split
    · simp
    · rw [Nat.toDigitsCore_lens_eq]
      omega
  exact List.ne_nil_of_length_pos h

theorem nat_repr_ne_empty (n : Nat) : Nat.repr n ≠ "" := by
  unfold Nat.repr
  intro h
  exact toDigits_ne_nil 10 n (by simpa [List.asString, String.ext_iff] using h)

theorem int_toString_ne_empty (n : Int) : toString n ≠ "" := by
  cases n with
  | ofNat m => exact nat_repr_ne_empty m
  | negSucc m =>
      show "-" ++ toString (m + 1) ≠ ""
      intro h
      have hl := congrArg String.length h
      rw [String.length_append] at hl
      have h1 : ("-" : String).length = 1 := by decide
      have h2 : ("" : String).length = 0 := by decide
      omega

theorem format_primary_key_ne_empty (k : KeyVal) : format_primary_key k ≠ "" := by
  cases k with
  | int n => exact int_toString_ne_empty n
  | str s =>
      show "\x27" ++ s ++ "\x27" ≠ ""
      intro h
      have hl := congrArg String.length h
      rw [String.length_append, String.length_append] at hl
      have h1 : ("\x27" : String).length = 1 := by decide
      have h2 : ("" : String).length = 0 := by decide
      omega

theorem intercalate_go_length (l : List String) (acc s : String) :
    acc.length ≤ (String.intercalate.go acc s l).length := by
  induction l generalizing acc with
  | nil => simp [String.intercalate.go]
  | cons a as ih =>
      have h1 : String.intercalate.go acc s (a :: as)
          = String.intercalate.go (acc ++ s ++ a) s as := rfl
      have h2 := ih (acc ++ s ++ a)
      have h3 : acc.length ≤ (acc ++ s ++ a).length := by
        rw [String.length_append, String.length_append]
        omega
      rw [h1]
      omega

theorem intercalate_cons_ne_empty (s a : String) (l : List String) (ha : a ≠ "") :
    String.intercalate s (a :: l) ≠ "" := by
  have h1 : String.intercalate s (a :: l) = String.intercalate.go a s l := rfl
  have h2 := intercalate_go_length l a s
  have ha' : 0 < a.length := by
    rcases Nat.eq_zero_or_pos a.length with h0 | h0
    · exact absurd (String.ext (List.length_eq_zero.mp h0)) ha
    · exact h0
  intro h
  have : (String.intercalate.go a s l).length = 0 := by
    rw [← h1, h]
    rfl
  omega

theorem find_orphans_spec {src tgt : List Row} (h : GoodPair src tgt) (F : List String)
    (s e : Int) :
    (find_orphans src tgt F (some s) (some e)).toFinset = orphansSpec src tgt F s e ∧
    (find_orphans src tgt F (some s) (some e)).length = (orphansSpec src tgt F s e).card ∧
    (find_orphans src tgt F (some s) (some e)).Nodup := by
  unfold find_orphans find_orphans_traced
  rw [if_pos (by simp)]
  by_cases hc : compare_counts src tgt F (some s) (some e) = 0
  · rw [if_pos hc]
    have hO := compare_counts_zero_no_orphans h F s e hc
    simp [hO]
  · rw [if_neg hc]
    have hnd : ((idsIn tgt F (some s) (some e)).filter
        (fun k => decide (k ∉ idsIn src F (some s) (some e)))).Nodup :=
      (idsIn_nodup ..).filter _
    have hfin : ((idsIn tgt F (some s) (some e)).filter
        (fun k => decide (k ∉ idsIn src F (some s) (some e)))).toFinset
        = orphansSpec src tgt F s e := by
      ext k
      simp only [List.mem_toFinset, List.mem_filter, decide_eq_true_eq, orphansSpec,
        Finset.mem_sdiff]
      constructor
      · rintro ⟨hkt, hks⟩
        refine ⟨hkt, fun hka => hks ?_⟩
        exact (mem_idsIn_src_iff h F (some s) (some e) k).mpr ⟨hka, hkt⟩
      · rintro ⟨hkt, hka⟩
        refine ⟨hkt, fun hks => hka ?_⟩
        exact ((mem_idsIn_src_iff h F (some s) (some e) k).mp hks).1
    refine ⟨hfin, ?_, hnd⟩
    rw [← hfin, List.toFinset_card_of_nodup hnd]

theorem remove_orphans_spec {src tgt : List Row} (h : GoodPair src tgt)
    (table key : String) (F : List String) (s e : Int) :
    (remove_orphans_from_target src tgt table key F (some s) (some e)).removed
      = (orphansSpec src tgt F s e).card ∧
    (remove_orphans_from_target src tgt table key F (some s) (some e)).target
      = tgt.filter (fun r => decide (r.id ∉ orphansSpec src tgt F s e)) := by
  obtain ⟨hfin, hlen, hnd⟩ := find_orphans_spec h F s e
  unfold remove_orphans_from_target
  rcases hfo : find_orphans src tgt F (some s) (some e) with _ | ⟨a, l⟩
  · rw [hfo] at hfin hlen
    have hspec : orphansSpec src tgt F s e = ∅ := by
      rw [← hfin]
      rfl
    rw [if_pos (by rfl)]
    constructor
    · simpa using hlen
    · rw [hspec]
      refine (List.filter_eq_self.mpr ?_).symm
      intro r _
      simp
  · rw [hfo] at hfin hlen
    have hcsv : String.intercalate "," ((a :: l).map format_primary_key) ≠ "" := by
      rw [List.map_cons]
      exact intercalate_cons_ne_empty "," (format_primary_key a) _
        (format_primary_key_ne_empty a)
    rw [if_neg hcsv]
    refine ⟨hlen, ?_⟩
    apply List.filter_congr
    intro r _
    apply decide_eq_decide.mpr
    rw [format_id_eq]
    rw [← hfin, List.mem_toFinset]

theorem goodPair_filter {src tgt : List Row} (h : GoodPair src tgt) (O : Finset KeyVal)
    (hO : ∀ k ∈ O, k ∉ src.map Row.id) :
    GoodPair src (tgt.filter (fun r => decide (r.id ∉ O))) := by
  refine ⟨?_, h.nodup_src, ?_⟩
  · intro r hr
    rw [List.mem_filter]
    refine ⟨h.sub r hr, ?_⟩
    simp only [decide_eq_true_eq]
    intro hrO
    exact hO r.id hrO (List.mem_map_of_mem Row.id hr)
  · exact h.nodup_tgt.sublist ((List.filter_sublist tgt).map Row.id)

theorem orphansSpec_not_src (src tgt : List Row) (F : List String) (s e : Int) :
    ∀ k ∈ orphansSpec src tgt F s e, k ∉ src.map Row.id := by
  intro k hk
  rw [orphansSpec, Finset.mem_sdiff] at hk
  intro hmem
  exact hk.2 (List.mem_toFinset.mpr hmem)

theorem idsIn_toFinset_split (tgt : List Row) (F : List String) {s m e : Int}
    (h1 : s ≤ m) (h2 : m ≤ e) :
    (idsIn tgt F (some s) (some e)).toFinset
      = (idsIn tgt F (some s) (some m)).toFinset ∪ (idsIn tgt F (some m) (some e)).toFinset := by
  ext k
  simp only [Finset.mem_union, List.mem_toFinset, mem_idsIn]
  constructor
  · rintro ⟨r, hr, hm, rfl⟩
    rcases (matchesRange_split F s m e r h1 h2).mp hm with hh | hh
    · exact Or.inl ⟨r, hr, hh, rfl⟩
    · exact Or.inr ⟨r, hr, hh, rfl⟩
  · rintro (⟨r, hr, hm, rfl⟩ | ⟨r, hr, hm, rfl⟩)
    · exact ⟨r, hr, (matchesRange_split F s m e r h1 h2).mpr (Or.inl hm), rfl⟩
    · exact ⟨r, hr, (matchesRange_split F s m e r h1 h2).mpr (Or.inr hm), rfl⟩

theorem orphansSpec_split (src tgt : List Row) (F : List String) {s m e : Int}
    (h1 : s ≤ m) (h2 : m ≤ e) :
    orphansSpec src tgt F s e = orphansSpec src tgt F s m ∪ orphansSpec src tgt F m e := by
  unfold orphansSpec
  rw [idsIn_toFinset_split tgt F h1 h2, Finset.union_sdiff_distrib]

theorem mem_idsIn_filter (tgt : List Row) (F : List String) (O : Finset KeyVal)
    (s e : Option Int) (k : KeyVal) :
    k ∈ idsIn (tgt.filter (fun r => decide (r.id ∉ O))) F s e ↔
      k ∈ idsIn tgt F s e ∧ k ∉ O := by
  simp only [mem_idsIn, List.mem_filter, decide_eq_true_eq]
  constructor
  · rintro ⟨r, ⟨hr, hO⟩, hm, rfl⟩
    exact ⟨⟨r, hr, hm, rfl⟩, hO⟩
  · rintro ⟨⟨r, hr, hm, rfl⟩, hO⟩
    exact ⟨r, ⟨hr, hO⟩, hm, rfl⟩

theorem orphansSpec_filter_target (src tgt : List Row) (F : List String)
    (O : Finset KeyVal) (s e : Int) :
    orphansSpec src (tgt.filter (fun r => decide (r.id ∉ O))) F s e
      = orphansSpec src tgt F s e \ O := by
  unfold orphansSpec
  ext k
  simp only [Finset.mem_sdiff, List.mem_toFinset, mem_idsIn_filter]
  tauto

theorem rotwbs_baseA (src tgt : List Row) (table key : String) (F : List String)
    (s e : Int) (thres : Nat) (minseg : Int)
    (h1 : s = avg_datetime s e ∨ e = avg_datetime s e ∨ avg_datetime s e - s < minseg) :
    remove_orphans_from_target_with_binary_search src tgt table key F s e thres minseg
      = remove_orphans_from_target src tgt table key F (some s) (some e) := by
  rw [remove_orphans_from_target_with_binary_search.eq_def]
  dsimp only
  rw [dif_pos h1]

theorem rotwbs_baseB (src tgt : List Row) (table key : String) (F : List String)
    (s e : Int) (thres : Nat) (minseg : Int)
    (h1 : ¬(s = avg_datetime s e ∨ e = avg_datetime s e ∨ avg_datetime s e - s < minseg))
    (hc1 : countRows tgt F (some s) (some (avg_datetime s e)) = 0)
    (hc2 : countRows tgt F (some (avg_datetime s e)) (some e) = 0) :
    remove_orphans_from_target_with_binary_search src tgt table key F s e thres minseg
      = ⟨0, tgt, []⟩ := by
  have hs : s ≠ avg_datetime s e := fun hh => h1 (Or.inl hh)
  have he : e ≠ avg_datetime s e := fun hh => h1 (Or.inr (Or.inl hh))
  rw [remove_orphans_from_target_with_binary_search.eq_def]
  dsimp only
  rw [dif_neg h1, if_pos hs, if_pos he, dif_pos ⟨hc1, hc2⟩]

theorem rotwbs_baseC (src tgt : List Row) (table key : String) (F : List String)
    (s e : Int) (thres : Nat) (minseg : Int)
    (h1 : ¬(s = avg_datetime s e ∨ e = avg_datetime s e ∨ avg_datetime s e - s < minseg))
    (h2 : ¬(countRows tgt F (some s) (some (avg_datetime s e)) = 0 ∧
        countRows tgt F (some (avg_datetime s e)) (some e) = 0))
    (h3 : countRows tgt F (some s) (some (avg_datetime s e)) < thres ∧
        countRows tgt F (some (avg_datetime s e)) (some e) < thres) :
    remove_orphans_from_target_with_binary_search src tgt table key F s e thres minseg
      = ⟨(remove_orphans_from_target src tgt table key F (some s) (some (avg_datetime s e))).removed
          + (remove_orphans_from_target src
              (remove_orphans_from_target src tgt table key F (some s)
                (some (avg_datetime s e))).target
              table key F (some (avg_datetime s e)) (some e)).removed,
         (remove_orphans_from_target src
              (remove_orphans_from_target src tgt table key F (some s)
                (some (avg_datetime s e))).target
              table key F (some (avg_datetime s e)) (some e)).target,
         (remove_orphans_from_target src tgt table key F (some s)
              (some (avg_datetime s e))).deletes
           ++ (remove_orphans_from_target src
              (remove_orphans_from_target src tgt table key F (some s)
                (some (avg_datetime s e))).target
              table key F (some (avg_datetime s e)) (some e)).deletes⟩ := by
  have hs : s ≠ avg_datetime s e := fun hh => h1 (Or.inl hh)
  have he : e ≠ avg_datetime s e := fun hh => h1 (Or.inr (Or.inl hh))
  rw [remove_orphans_from_target_with_binary_search.eq_def]
  dsimp only
  rw [dif_neg h1, if_pos hs, if_pos he, dif_neg h2, dif_pos h3]

theorem rotwbs_rec (src tgt : List Row) (table key : String) (F : List String)
    (s e : Int) (thres : Nat) (minseg : Int)
    (h1 : ¬(s = avg_datetime s e ∨ e = avg_datetime s e ∨ avg_datetime s e - s < minseg))
    (h2 : ¬(countRows tgt F (some s) (some (avg_datetime s e)) = 0 ∧
        countRows tgt F (some (avg_datetime s e)) (some e) = 0))
    (h3 : ¬(countRows tgt F (some s) (some (avg_datetime s e)) < thres ∧
        countRows tgt F (some (avg_datetime s e)) (some e) < thres)) :
    remove_orphans_from_target_with_binary_search src tgt table key F s e thres minseg
      = ⟨(remove_orphans_from_target_with_binary_search src tgt table key F s
            (avg_datetime s e) thres defaultMinSegmentSize).removed
          + (remove_orphans_from_target_with_binary_search src
              (remove_orphans_from_target_with_binary_search src tgt table key F s
                (avg_datetime s e) thres defaultMinSegmentSize).target
              table key F (avg_datetime s e) e thres defaultMinSegmentSize).removed,
         (remove_orphans_from_target_with_binary_search src
              (remove_orphans_from_target_with_binary_search src tgt table key F s
                (avg_datetime s e) thres defaultMinSegmentSize).target
              table key F (avg_datetime s e) e thres defaultMinSegmentSize).target,
         (remove_orphans_from_target_with_binary_search src tgt table key F s
              (avg_datetime s e) thres defaultMinSegmentSize).deletes
           ++ (remove_orphans_from_target_with_binary_search src
              (remove_orphans_from_target_with_binary_search src tgt table key F s
                (avg_datetime s e) thres defaultMinSegmentSize).target
              table key F (avg_datetime s e) e thres defaultMinSegmentSize).deletes⟩ := by
  have hs : s ≠ avg_datetime s e := fun hh => h1 (Or.inl hh)
  have he : e ≠ avg_datetime s e := fun hh => h1 (Or.inr (Or.inl hh))
  rw [remove_orphans_from_target_with_binary_search.eq_def]
  dsimp only
  rw [dif_neg h1, if_pos hs, if_pos he, dif_neg h2, dif_neg h3]

theorem countRows_zero_of_le (tgt : List Row) (F : List String) {a b : Int} (h : b ≤ a) :
    countRows tgt F (some a) (some b) = 0 := by
  unfold countRows
  rw [List.length_eq_zero, List.filter_eq_nil]
  intro r _
  rw [matchesRange_false_of_le F a b r h]
  simp

theorem avg_in_range (tgt : List Row) (F : List String) {s e : Int}
    (hs : s ≠ avg_datetime s e)
    (hc : ¬(countRows tgt F (some s) (some (avg_datetime s e)) = 0 ∧
        countRows tgt F (some (avg_datetime s e)) (some e) = 0)) :
    s ≤ avg_datetime s e ∧ avg_datetime s e ≤ e := by
  have hb := pyHalf_bounds (e - s)
  have hm : avg_datetime s e = s + pyHalf (e - s) := rfl
  rcases le_or_lt e s with hlee | hlt
  · exfalso
    apply hc
    constructor
    · exact countRows_zero_of_le tgt F (by omega)
    · exact countRows_zero_of_le tgt F (by omega)
  · constructor <;> omega

theorem idsIn_eq_nil_of_count_zero (rows : List Row) (F : List String) (s e : Option Int)
    (h : countRows rows F s e = 0) : idsIn rows F s e = [] := by
  unfold countRows at h
  unfold idsIn
  rw [List.length_eq_zero] at h
  rw [h]
  rfl

theorem countRows_split_zero (tgt : List Row) (F : List String) {s m e : Int}
    (h1 : s ≤ m) (h2 : m ≤ e)
    (hc1 : countRows tgt F (some s) (some m) = 0)
    (hc2 : countRows tgt F (some m) (some e) = 0) :
    countRows tgt F (some s) (some e) = 0 := by
  unfold countRows at hc1 hc2 ⊢
  rw [List.length_eq_zero] at hc1 hc2 ⊢
  rw [List.filter_eq_nil] at hc1 hc2 ⊢
  intro r hr
  intro hmm
  rcases (matchesRange_split F s m e r h1 h2).mp hmm with hh | hh
  · exact hc1 r hr hh
  · exact hc2 r hr hh

theorem orphansSpec_empty_of_halves (src tgt : List Row) (F : List String) {s e : Int}
    (hs : s ≠ avg_datetime s e)
    (hc1 : countRows tgt F (some s) (some (avg_datetime s e)) = 0)
    (hc2 : countRows tgt F (some (avg_datetime s e)) (some e) = 0) :
    orphansSpec src tgt F s e = ∅ := by
  have hb := pyHalf_bounds (e - s)
  have hm : avg_datetime s e = s + pyHalf (e - s) := rfl
  have hcount : countRows tgt F (some s) (some e) = 0 := by
    rcases le_or_lt e s with hlee | hlt
    · exact countRows_zero_of_le tgt F hlee
    · exact countRows_split_zero tgt F (by omega) (by omega) hc1 hc2
  have hids := idsIn_eq_nil_of_count_zero tgt F (some s) (some e) hcount
  unfold orphansSpec
  rw [hids]
  simp

theorem halves_compose {src tgt : List Row} (h : GoodPair src tgt) (F : List String)
    {s m e : Int} (h1 : s ≤ m) (h2 : m ≤ e) (r1 r2 : RemoveResult)
    (hr1rem : r1.removed = (orphansSpec src tgt F s m).card)
    (hr1tgt : r1.target = tgt.filter (fun r => decide (r.id ∉ orphansSpec src tgt F s m)))
    (hr2rem : r2.removed = (orphansSpec src r1.target F m e).card)
    (hr2tgt : r2.target = r1.target.filter
      (fun r => decide (r.id ∉ orphansSpec src r1.target F m e))) :
    r1.removed + r2.removed = (orphansSpec src tgt F s e).card ∧
    r2.target = tgt.filter (fun r => decide (r.id ∉ orphansSpec src tgt F s e)) := by
  have hA : orphansSpec src r1.target F m e
      = orphansSpec src tgt F m e \ orphansSpec src tgt F s m := by
    rw [hr1tgt, orphansSpec_filter_target]
  have hsplit := orphansSpec_split src tgt F h1 h2
  constructor
  · rw [hr1rem, hr2rem, hA, hsplit]
    rw [← Finset.union_sdiff_self_eq_union,
      Finset.card_union_of_disjoint Finset.disjoint_sdiff]
  · rw [hr2tgt, hA, hr1tgt, List.filter_filter, hsplit]
    apply List.filter_congr
    intro r _
    by_cases hA' : r.id ∈ orphansSpec src tgt F s m <;>
      by_cases hB' : r.id ∈ orphansSpec src tgt F m e <;>
      simp [hA', hB', Finset.mem_sdiff, Finset.mem_union]

theorem binary_search_spec (src tgt : List Row) (table key : String) (F : List String)
    (s e : Int) (thres : Nat) (minseg : Int) (h : GoodPair src tgt) :
    (remove_orphans_from_target_with_binary_search src tgt table key F s e thres
        minseg).removed
      = (orphansSpec src tgt F s e).card ∧
    (remove_orphans_from_target_with_binary_search src tgt table key F s e thres
        minseg).target
      = tgt.filter (fun r => decide (r.id ∉ orphansSpec src tgt F s e)) := by
  revert h
  induction tgt, table, key, F, s, e, thres, minseg using
      remove_orphans_from_target_with_binary_search.induct src with
  | case1 tgt table key F s e thres minseg halfway h1 =>
      intro hGP
      unfold_let halfway at h1
      rw [rotwbs_baseA src tgt table key F s e thres minseg h1]
      exact remove_orphans_spec hGP table key F s e
  | case2 tgt table key F s e thres minseg halfway h1 count1 count2 h2 =>
      intro hGP
      unfold_let count1 count2 at h2
      unfold_let halfway at h1 h2
      have hs : s ≠ avg_datetime s e := fun hh => h1 (Or.inl hh)
      have he : e ≠ avg_datetime s e := fun hh => h1 (Or.inr (Or.inl hh))
      rw [dif_pos hs, dif_pos he] at h2
      obtain ⟨hc1, hc2⟩ := h2
      rw [rotwbs_baseB src tgt table key F s e thres minseg h1 hc1 hc2]
      have hO := orphansSpec_empty_of_halves src tgt F hs hc1 hc2
      rw [hO]
      constructor
      · simp
      · refine (List.filter_eq_self.mpr ?_).symm
        intro r _
        simp
  | case3 tgt table key F s e thres minseg halfway h1 count1 count2 h2 h3 =>
      intro hGP
      unfold_let count1 count2 at h2 h3
      unfold_let halfway at h1 h2 h3
      have hs : s ≠ avg_datetime s e := fun hh => h1 (Or.inl hh)
      have he : e ≠ avg_datetime s e := fun hh => h1 (Or.inr (Or.inl hh))
      rw [dif_pos hs, dif_pos he] at h2 h3
      rw [rotwbs_baseC src tgt table key F s e thres minseg h1 h2 h3]
      obtain ⟨hm1, hm2⟩ := avg_in_range tgt F hs h2
      have flat1 := remove_orphans_spec hGP table key F s (avg_datetime s e)
      have hGP2 : GoodPair src (remove_orphans_from_target src tgt table key F (some s)
          (some (avg_datetime s e))).target := by
        rw [flat1.2]
        exact goodPair_filter hGP _ (orphansSpec_not_src src tgt F s (avg_datetime s e))
      have flat2 := remove_orphans_spec hGP2 table key F (avg_datetime s e) e
      exact halves_compose hGP F hm1 hm2 _ _ flat1.1 flat1.2 flat2.1 flat2.2
  | case4 tgt table key F s e thres minseg halfway h1 count1 count2 h2 h3 r1 ih1 ih1x ih2 =>
      intro hGP
      unfold_let count1 count2 at h2 h3
      unfold_let r1 at ih2
      unfold_let halfway at h1 h2 h3 ih1 ih2
      have hs : s ≠ avg_datetime s e := fun hh => h1 (Or.inl hh)
      have he : e ≠ avg_datetime s e := fun hh => h1 (Or.inr (Or.inl hh))
      rw [dif_pos hs, dif_pos he] at h2 h3
      rw [rotwbs_rec src tgt table key F s e thres minseg h1 h2 h3]
      obtain ⟨hm1, hm2⟩ := avg_in_range tgt F hs h2
      have spec1 := ih1 hGP
      have hGP2 : GoodPair src (remove_orphans_from_target_with_binary_search src tgt table
          key F s (avg_datetime s e) thres defaultMinSegmentSize).target := by
        rw [spec1.2]
        exact goodPair_filter hGP _ (orphansSpec_not_src src tgt F s (avg_datetime s e))
      have spec2 := ih2 hGP2
      exact halves_compose hGP F hm1 hm2 _ _ spec1.1 spec1.2 spec2.1 spec2.2

theorem remove_orphans_empty_case (src tgt : List Row) (table key : String)
    (F : List String) (s e : Option Int) (hfo : find_orphans src tgt F s e = []) :
    remove_orphans_from_target src tgt table key F s e = ⟨0, tgt, []⟩ := by
  unfold remove_orphans_from_target
  rw [hfo]
  rfl

theorem remove_orphans_nonempty_case (src tgt : List Row) (table key : String)
    (F : List String) (s e : Option Int) (a : KeyVal) (l : List KeyVal)
    (hfo : find_orphans src tgt F s e = a :: l) :
    remove_orphans_from_target src tgt table key F s e
      = ⟨(a :: l).length,
         tgt.filter (fun r => decide (format_id r.id ∉ a :: l)),
         [delete_query table key
           (String.intercalate "," ((a :: l).map format_primary_key))]⟩ := by
  unfold remove_orphans_from_target
  rw [hfo]
  rw [if_neg (by
    rw [List.map_cons]
    exact intercalate_cons_ne_empty "," _ _ (format_primary_key_ne_empty a))]

/-- C1 (amended): under the deletion-only invariant that the repository's
count-difference shortcut presupposes (unique keys per store; every source row
present unchanged in the target), bisected removal and one flat removal over
the same range remove the same total, for every table, key column, range,
threshold and minimum segment size. -/
theorem binary_search_sum_law (src tgt : List Row) (table key : String) (F : List String)
    (s e : Int) (thres : Nat) (minseg : Int)
    (hsub : ∀ r ∈ src, r ∈ tgt)
    (hnds : (src.map Row.id).Nodup)
    (hndt : (tgt.map Row.id).Nodup) :
    (remove_orphans_from_target_with_binary_search src tgt table key F s e thres
        minseg).removed
      = (remove_orphans_from_target src tgt table key F (some s) (some e)).removed :=
  ((binary_search_spec src tgt table key F s e thres minseg ⟨hsub, hnds, hndt⟩).1).trans
    ((remove_orphans_spec ⟨hsub, hnds, hndt⟩ table key F s e).1).symm

/-- C1 witness: a concrete deletion-only pair on which the sum law is
instantiated. -/
theorem binary_search_sum_law_witness :
    (∀ r ∈ srcPair, r ∈ tgtPair) ∧ (srcPair.map Row.id).Nodup ∧
    (tgtPair.map Row.id).Nodup ∧
    (remove_orphans_from_target_with_binary_search srcPair tgtPair "t" "id" ["ts"] 0
        40000000 10000 10000000).removed
      = (remove_orphans_from_target srcPair tgtPair "t" "id" ["ts"] (some 0)
          (some 40000000)).removed :=
  ⟨by decide, by decide, by decide,
    binary_search_sum_law srcPair tgtPair "t" "id" ["ts"] 0 40000000 10000 10000000
      (by decide) (by decide) (by decide)⟩

/-- C1 counterexample: on a dataset where the two stores hold equally many rows
in the full range but with disjoint keys, the flat call's count shortcut
returns zero while bisection finds both orphans, so the sum law as stated (for
any dataset) is false. -/
theorem binary_search_sum_law_cex :
    (remove_orphans_from_target_with_binary_search srcCntr tgtCntr "t" "id" ["ts"] 0
        40000000 10000 10000000).removed
      ≠ (remove_orphans_from_target srcCntr tgtCntr "t" "id" ["ts"] (some 0)
          (some 40000000)).removed := by
  rw [remove_orphans_from_target_with_binary_search.eq_def]
  decide

/-- C8: for a range with start before end, the midpoint is strictly between
the endpoints whenever the range spans at least two microseconds (the
indivisible unit); on a one-microsecond range the midpoint equals the start;
and whenever exit condition A holds (midpoint equals an endpoint, or midpoint
minus start is below min_segment_size) the recursion stops with a single
direct removal, whatever the counts are.  Termination of the recursion itself
is established by the accepted well-founded definition of
`remove_orphans_from_target_with_binary_search`, measured by the shrinking
range. -/
theorem bisection_terminates (s e : Int) (h : s < e) :
    (2 ≤ e - s → s < avg_datetime s e ∧ avg_datetime s e < e) ∧
    (e - s = 1 → avg_datetime s e = s) ∧
    (∀ (src tgt : List Row) (table key : String) (F : List String) (thres : Nat)
      (minseg : Int),
      (s = avg_datetime s e ∨ e = avg_datetime s e ∨ avg_datetime s e - s < minseg) →
      remove_orphans_from_target_with_binary_search src tgt table key F s e thres minseg
        = remove_orphans_from_target src tgt table key F (some s) (some e)) := by
  have hm : avg_datetime s e = s + pyHalf (e - s) := rfl
  refine ⟨?_, ?_, ?_⟩
  · intro h2
    have hstrict : 1 ≤ pyHalf (e - s) ∧ pyHalf (e - s) ≤ (e - s) - 1 := by
      unfold pyHalf
      split
      · omega
      · split <;> omega
    omega
  · intro h1
    have h0 : pyHalf (e - s) = 0 := by
      rw [h1]
      rfl
    omega
  · intro src tgt table key F thres minseg hA
    exact rotwbs_baseA src tgt table key F s e thres minseg hA

/-- C8 witness: midpoint of [0, 2) is strictly inside; on the one-microsecond
range [0, 1) exit condition A fires and the call reduces to one flat
removal. -/
theorem bisection_terminates_witness :
    ((0 : Int) < avg_datetime 0 2 ∧ avg_datetime 0 2 < 2) ∧
    remove_orphans_from_target_with_binary_search srcPair tgtPair "t" "id" ["ts"] 0 1 5 7
      = remove_orphans_from_target srcPair tgtPair "t" "id" ["ts"] (some 0) (some 1) :=
  ⟨(bisection_terminates 0 2 (by decide)).1 (by decide),
    (bisection_terminates 0 1 (by decide)).2.2 srcPair tgtPair "t" "id" ["ts"] 5 7
      (Or.inl (by decide))⟩

/-- C9: in the recursive case the result does not depend on the caller's
min_segment_size, because the recursive calls of client.py lines 398-414 pass
thres but not min_segment_size: both sub-calls run with the default, so a
non-default min_segment_size acts at the top level only. -/
theorem min_segment_size_top_level_only (src tgt : List Row) (table key : String)
    (F : List String) (s e : Int) (thres : Nat) (a b : Int)
    (h1a : ¬(s = avg_datetime s e ∨ e = avg_datetime s e ∨ avg_datetime s e - s < a))
    (h1b : ¬(s = avg_datetime s e ∨ e = avg_datetime s e ∨ avg_datetime s e - s < b))
    (h2 : ¬(countRows tgt F (some s) (some (avg_datetime s e)) = 0 ∧
        countRows tgt F (some (avg_datetime s e)) (some e) = 0))
    (h3 : ¬(countRows tgt F (some s) (some (avg_datetime s e)) < thres ∧
        countRows tgt F (some (avg_datetime s e)) (some e) < thres)) :
    remove_orphans_from_target_with_binary_search src tgt table key F s e thres a
      = remove_orphans_from_target_with_binary_search src tgt table key F s e thres b := by
  rw [rotwbs_rec src tgt table key F s e thres a h1a h2 h3,
    rotwbs_rec src tgt table key F s e thres b h1b h2 h3]

/-- C9 witness: two different top-level min_segment_size values (1 microsecond
and the 10-second default) give the same result once recursion is entered. -/
theorem min_segment_size_top_level_only_witness :
    remove_orphans_from_target_with_binary_search [] tgtOne "t" "id" ["ts"] 0 40000000 1 1
      = remove_orphans_from_target_with_binary_search [] tgtOne "t" "id" ["ts"] 0
          40000000 1 10000000 :=
  min_segment_size_top_level_only [] tgtOne "t" "id" ["ts"] 0 40000000 1 1 10000000
    (by decide) (by decide) (by decide) (by decide)

/-- C6: whenever a bound is given (so the where clause is non-empty),
`find_orphans` runs the compare_counts pair of COUNT queries first; a zero
difference makes it return the empty set with no id fetch on either store;
with no bound the shortcut is not taken and no COUNT queries are issued.  The
hypothesis `F ≠ []` restricts the statement to the calls the where-clause
builder does not reject (a bound with no timestamp columns raises before any
query; settled at the textual layer). -/
theorem find_orphans_shortcut (src tgt : List Row) (F : List String) (s e : Option Int)
    (hF : F ≠ []) :
    ((s.isSome ∨ e.isSome) →
      (find_orphans_traced src tgt F s e).2.head? = some DBOp.countPair ∧
      (compare_counts src tgt F s e = 0 →
        (find_orphans_traced src tgt F s e).1 = [] ∧
        DBOp.fetchTargetIds ∉ (find_orphans_traced src tgt F s e).2 ∧
        DBOp.fetchSourceIds ∉ (find_orphans_traced src tgt F s e).2)) ∧
    ((s = none ∧ e = none) → DBOp.countPair ∉ (find_orphans_traced src tgt F s e).2) := by
  constructor
  · intro hrange
    unfold find_orphans_traced
    rw [if_pos hrange]
    by_cases hc : compare_counts src tgt F s e = 0
    · rw [if_pos hc]
      exact ⟨rfl, fun _ => ⟨rfl, by decide, by decide⟩⟩
    · rw [if_neg hc]
      exact ⟨rfl, fun hc2 => absurd hc2 hc⟩
  · rintro ⟨rfl, rfl⟩
    unfold find_orphans_traced
    rw [if_neg (by simp)]
    show DBOp.countPair ∉ [DBOp.fetchTargetIds, DBOp.fetchSourceIds]
    decide

/-- C6 witness: identical one-row stores over a range containing the row give
a zero count difference, the empty orphan set, and no id fetch. -/
theorem find_orphans_shortcut_witness :
    (find_orphans_traced srcPair srcPair ["ts"] (some 0) (some 10)).1 = [] ∧
    DBOp.fetchTargetIds ∉ (find_orphans_traced srcPair srcPair ["ts"] (some 0)
      (some 10)).2 ∧
    DBOp.fetchSourceIds ∉ (find_orphans_traced srcPair srcPair ["ts"] (some 0)
      (some 10)).2 :=
  ((find_orphans_shortcut srcPair srcPair ["ts"] (some 0) (some 10) (by decide)).1
    (Or.inl rfl)).2 (by decide)

/-- C7: remove_orphans_from_target returns the size of the orphan set computed
by find_orphans; when that set is empty it issues no delete and leaves the
target untouched; when it is non-empty it issues exactly one bulk DELETE of
the shape `DELETE <table> WHERE <key> IN (<values>)`, the values joined by
commas with integers rendered bare and all other keys single-quoted. -/
theorem remove_orphans_delete_shape (src tgt : List Row) (table key : String)
    (F : List String) (s e : Option Int) :
    (remove_orphans_from_target src tgt table key F s e).removed
      = (find_orphans src tgt F s e).length ∧
    (find_orphans src tgt F s e = [] →
      (remove_orphans_from_target src tgt table key F s e).removed = 0 ∧
      (remove_orphans_from_target src tgt table key F s e).deletes = [] ∧
      (remove_orphans_from_target src tgt table key F s e).target = tgt) ∧
    (find_orphans src tgt F s e ≠ [] →
      (remove_orphans_from_target src tgt table key F s e).deletes
        = [delete_query table key (String.intercalate ","
            ((find_orphans src tgt F s e).map format_primary_key))]) ∧
    (∀ n : Int, format_primary_key (.int n) = toString n) ∧
    (∀ str : String, format_primary_key (.str str) = "\x27" ++ str ++ "\x27") := by
  rcases hfo : find_orphans src tgt F s e with _ | ⟨a, l⟩
  · have hcase := remove_orphans_empty_case src tgt table key F s e hfo
    rw [hcase]
    exact ⟨rfl, fun _ => ⟨rfl, rfl, rfl⟩, fun hne => absurd rfl hne,
      fun n => rfl, fun str => rfl⟩
  · have hcase := remove_orphans_nonempty_case src tgt table key F s e a l hfo
    rw [hcase]
    exact ⟨rfl, fun hc => absurd hc (by simp), fun _ => rfl, fun n => rfl, fun str => rfl⟩

/-- C7 witness: with one orphan of integer key 2 the delete statement text is
produced; with empty stores nothing is deleted. -/
theorem remove_orphans_delete_shape_witness :
    (remove_orphans_from_target srcPair tgtPair "t" "id" ["ts"] none none).deletes
      = [delete_query "t" "id" (String.intercalate ","
          ((find_orphans srcPair tgtPair ["ts"] none none).map format_primary_key))] ∧
    (remove_orphans_from_target [] [] "t" "id" ["ts"] none none).deletes = [] :=
  ⟨((remove_orphans_delete_shape srcPair tgtPair "t" "id" ["ts"] none none).2.2.1
      (by decide)),
    ((remove_orphans_delete_shape [] [] "t" "id" ["ts"] none none).2.1 (by decide)).2.1⟩

/-- C10: the value returned by remove_orphans_from_target is the cardinality
of the orphan set, in every case; it is not the number of rows the delete
removed from the target, which can differ (for example when the target holds
duplicate key values). -/
theorem removed_count_is_set_size :
    (∀ (src tgt : List Row) (table key : String) (F : List String) (s e : Option Int),
      (remove_orphans_from_target src tgt table key F s e).removed
        = (find_orphans src tgt F s e).length) ∧
    (∃ (src tgt : List Row) (table key : String) (F : List String) (s e : Option Int),
      (remove_orphans_from_target src tgt table key F s e).removed
        ≠ tgt.length - (remove_orphans_from_target src tgt table key F s e).target.length) := by
  constructor
  · intro src tgt table key F s e
    unfold remove_orphans_from_target
    dsimp only
    split
    · rfl
    · rfl
  · refine ⟨[], [⟨.int 2, [("ts", 0)]⟩, ⟨.int 2, [("ts", 0)]⟩], "t", "id", ["ts"],
      none, none, ?_⟩
    decide
